import Mathlib

/-!
# Verification of the pet-republic-api synchronization pipeline

Shallow embedding of the Airtable → D1 import pipeline and the cron-driven
image-fetch scheduler of `src/index.js`, together with theorems settling the
frozen specification claims.

The embedding covers:
* the JavaScript value model needed by the field mapping (truthiness,
  `String(...)` coercion, `||` defaulting),
* `cleanAirtableRecord` (field mapping of the v3 importer `syncFromAirtable`),
* the `INSERT ... ON CONFLICT(sku) DO UPDATE` statement semantics of the v3
  importer,
* `syncFromAirtable` itself (config check, cursor-following pagination,
  statement building, chunked batch execution),
* the cron `scheduled` handler (selection of pending rows, per-item head /
  fetch / put processing, state updates),
* `syncAirtable` (the v1 importer: pagination, per-record skip on missing
  `商品貨號`, chunked statement building and result counters).
-/

namespace PetRepublic

/-! ## JavaScript value model -/

/-- An Airtable attachment object as consumed by the importer
(`img.url`, `img.filename`, `img.width`, `img.height`). -/
structure Attachment where
  url : Option String
  filename : Option String
  width : Option Int
  height : Option Int
deriving DecidableEq, Repr

/-- The JavaScript values that can occur in an Airtable record field as the
code consumes them: strings, integral numbers, attachment arrays, `null`. -/
inductive JVal where
  | str (s : String)
  | num (n : Int)
  | arr (xs : List Attachment)
  | null
deriving DecidableEq, Repr

/-- JavaScript truthiness of a present value: `""` and `0` and `null` are
falsy, arrays (even empty) are truthy. -/
def JVal.truthy : JVal → Bool
  | .str s => s ≠ ""
  | .num n => n ≠ 0
  | .arr _ => true
  | .null => false

/-- Truthiness of a possibly-absent field (`undefined` is falsy). -/
def jsTruthy (v : Option JVal) : Bool :=
  match v with
  | some x => x.truthy
  | none => false

/-- `String(v)` for a present value. Attachment arrays only ever reach this
coercion in dead branches; they render as JavaScript would render an array of
plain objects. -/
def JVal.toStr : JVal → String
  | .str s => s
  | .num n => toString n
  | .arr xs => String.intercalate "," (xs.map (fun _ => "[object Object]"))
  | .null => "null"

/-- `String(v)` including the absent case (`String(undefined) = "undefined"`). -/
def jsToString (v : Option JVal) : String :=
  match v with
  | some x => x.toStr
  | none => "undefined"

/-- `v || null`: keep a truthy value, collapse everything else to `null`. -/
def jsOrNull (v : Option JVal) : Option JVal :=
  match v with
  | some x => if x.truthy then some x else none
  | none => none

/-- `a || b` on two field reads (used by `fields['重量（g）'] || fields['重量g']`). -/
def jsOr (a b : Option JVal) : Option JVal :=
  if jsTruthy a then a else b

/-- `v || null` for an optional numeric result (`NaN` is `none`, and `0` is
falsy so it also collapses to `null`). -/
def jsNumOrNull (v : Option Int) : Option Int :=
  match v with
  | some n => if n = 0 then none else some n
  | none => none

/-- `s.trim()`: strip leading and trailing whitespace. -/
def jsTrim (s : String) : String :=
  String.mk (((s.data.dropWhile Char.isWhitespace).reverse.dropWhile Char.isWhitespace).reverse)

/-- An Airtable record's `fields` object: an association list keyed by the
source field names. -/
abbrev Fields := List (String × JVal)

/-- Field access `fields[k]` (`none` models `undefined`). -/
def getField (f : Fields) (k : String) : Option JVal :=
  (f.find? (fun e => e.1 = k)).map (fun e => e.2)

/-- One Airtable record (`record.id`, `record.fields`). -/
structure AirtableRecord where
  id : String
  fields : Fields
deriving DecidableEq, Repr

/-! ## Numeric coercions of the field mapping

`parseInt(x, 10)` and `parseFloat(x)` are modelled at integer precision:
leading whitespace is skipped, an optional sign is read, then a leading digit
run; `parseFloat` additionally tolerates a fractional tail, which the model
truncates. No claim depends on the numeric columns, which the schema stores
as TEXT. -/

/-- Leading digit run of a character list as a number, `none` when empty. -/
def digitsValue : List Char → Option Nat → Option Nat
  | c :: cs, acc =>
    if c.isDigit then
      digitsValue cs (some ((acc.getD 0) * 10 + (c.toNat - 48)))
    else acc
  | [], acc => acc

/-- Shared front end of `parseInt`/`parseFloat`: skip whitespace, read an
optional sign and then a leading digit run; `none` models `NaN`. -/
def parseLeadingInt (s : String) : Option Int :=
  let cs := s.data.dropWhile Char.isWhitespace
  let (neg, cs) :=
    match cs with
    | '-' :: rest => (true, rest)
    | '+' :: rest => (false, rest)
    | _ => (false, cs)
  match digitsValue cs none with
  | some n => some (if neg then -(n : Int) else (n : Int))
  | none => none

/-- `parseInt(String(v), 10)` on a field value. -/
def jsParseInt (v : Option JVal) : Option Int :=
  match v with
  | some (.num n) => some n
  | _ => parseLeadingInt (jsToString v)

/-- `parseFloat(s)` at integer precision (fractional part truncated). -/
def jsParseFloat (s : String) : Option Int :=
  parseLeadingInt s

/-- `s.replace(/[$,]/g, '')`: drop every dollar sign and comma. -/
def stripDollarComma (s : String) : String :=
  String.mk (s.data.filter (fun c => c ≠ '$' ∧ c ≠ ','))

/-- `s.replace('g', '')`: remove only the first occurrence of `g`. -/
def removeFirstG : List Char → List Char
  | [] => []
  | c :: cs => if c = 'g' then cs else c :: removeFirstG cs

/-! ## Image-reference extraction (`cleanAirtableRecord`, image branch)

The importer first tries the pattern `檔名 (URL)` via the regex
`/([\w.-]+\.(jpg|jpeg|png|webp))\s*\((https?:\/\/[^)]+)\)/i`, then falls back
to treating the text as a bare URL when it starts with `http`. -/

/-- `\w.-` character class of the filename part. -/
def isWordDotDash (c : Char) : Bool :=
  c.isAlphanum ∨ c = '_' ∨ c = '.' ∨ c = '-'

/-- Case-insensitive check that a filename ends in one of the accepted image
extensions. -/
def hasImageExt (s : String) : Bool :=
  let l := s.toLower
  l.endsWith ".jpg" ∨ l.endsWith ".jpeg" ∨ l.endsWith ".png" ∨ l.endsWith ".webp"

/-- `https?:\/\/[^)]+` with the `i` flag: the paren contents must begin with
an http(s) scheme and contain at least one further character. -/
def parenUrlOk (cs : List Char) : Bool :=
  let s := (String.mk cs).toLower
  (s.startsWith "http://" ∧ 7 < cs.length) ∨ (s.startsWith "https://" ∧ 8 < cs.length)

/-- Auxiliary bound used for termination of the whitespace squasher. -/
theorem dropWhile_length_le (p : Char → Bool) (l : List Char) :
    (l.dropWhile p).length ≤ l.length := by
  induction l with
  | nil => simp
  | cons c cs ih =>
    rw [List.dropWhile_cons]
    by_cases h : p c
    · simp only [h, if_true]
      exact Nat.le_succ_of_le ih
    · simp [h]

/-- `s.replace(/\s+/g, '_')`: each maximal whitespace run becomes one `_`. -/
def squashWhitespace : List Char → List Char
  | [] => []
  | c :: cs =>
    if c.isWhitespace then '_' :: squashWhitespace (cs.dropWhile Char.isWhitespace)
    else c :: squashWhitespace cs
termination_by l => l.length
decreasing_by
  all_goals simp only [List.length_cons]
  · exact Nat.lt_succ_of_le (dropWhile_length_le _ _)
  · exact Nat.lt_succ_self _

/-- `s.replace(/\s+/g, '_')` on strings. -/
def squashWs (s : String) : String :=
  String.mk (squashWhitespace s.data)

/-- Scanner embedding the filename-paren-URL regex: walk the string looking
for a `(` whose preceding text ends (after optional whitespace, `\s*`) in a
`[\w.-]+` run with an image extension, and whose contents up to `)` form an
http(s) URL. `pre` is the already-scanned prefix, reversed. -/
def findImagePattern : List Char → List Char → Option (String × String)
  | pre, '(' :: rest =>
    let inside := rest.takeWhile (fun c => c ≠ ')')
    let hasClose := rest.any (fun c => c = ')')
    let beforeParen := pre.dropWhile Char.isWhitespace
    let fname := (beforeParen.takeWhile isWordDotDash).reverse
    if hasClose ∧ fname ≠ [] ∧ hasImageExt (String.mk fname) ∧ parenUrlOk inside then
      some (String.mk fname, String.mk inside)
    else findImagePattern ('(' :: pre) rest
  | pre, c :: rest => findImagePattern (c :: pre) rest
  | _, [] => none

/-- `new URL(s)` for a plain http(s) URL, returning the normalized `href` and
the last `pathname` segment (`pathname.split('/').pop()`); `none` models the
constructor throwing. -/
def parseSimpleUrl (s : String) : Option (String × String) :=
  let lower := s.toLower
  if lower.startsWith "http://" ∨ lower.startsWith "https://" then
    let schemeLen := if lower.startsWith "http://" then 7 else 8
    let rest := s.drop schemeLen
    let host := rest.takeWhile (fun c => c ≠ '/')
    if host = "" then none
    else
      let path := rest.drop host.length
      let path := if path = "" then "/" else path
      let href := s.take schemeLen ++ host ++ path
      let lastSeg := ((path.splitOn "/").getLast?).getD ""
      some (href, lastSeg)
  else none

/-- The image branch of `cleanAirtableRecord`: returns
`(image_file, airtable_image_url)`. -/
def extractImagePair (v : Option JVal) : Option String × Option String :=
  if jsTruthy v then
    let s := jsToString v
    match findImagePattern [] s.data with
    | some (fname, url) => (some (squashWs fname), some url)
    | none =>
      if s.startsWith "http" then
        match parseSimpleUrl ((s.splitOn ",").headD "") with
        | some (href, lastSeg) => (some (squashWs lastSeg), some href)
        | none => (none, none)
      else (none, none)
  else (none, none)

/-! ## `cleanAirtableRecord` -/

/-- The cleaned record produced by `cleanAirtableRecord`: exactly the values
that the v3 importer binds into its upsert statement. -/
structure CleanedRecord where
  sku : Option JVal
  title : Option JVal
  title_en : Option JVal
  brand : Option JVal
  category : Option JVal
  description : Option JVal
  materials : Option JVal
  image_file : Option String
  airtable_image_url : Option String
  case_pack_size : Option Int
  msrp : Option Int
  barcode : Option JVal
  dimensions_cm : Option JVal
  weight_g : Option Int
  origin : Option JVal
  in_stock : String
deriving DecidableEq, Repr

/-- `(fields['現貨商品（Y/N）'] === '是' || === 'Y') ? 'Y' : 'N'`. -/
def cleanInStock (v : Option JVal) : String :=
  if v = some (.str "是") ∨ v = some (.str "Y") then "Y" else "N"

/-- Embedding of `cleanAirtableRecord(fields)`. -/
def cleanAirtableRecord (fields : Fields) : CleanedRecord :=
  let imagePair := extractImagePair (getField fields "商品圖檔")
  { sku := jsOrNull (getField fields "商品貨號")
    title := jsOrNull (getField fields "產品名稱")
    title_en := jsOrNull (getField fields "英文品名")
    brand := jsOrNull (getField fields "品牌名稱")
    category := jsOrNull (getField fields "類別")
    description := jsOrNull (getField fields "商品介紹")
    materials := jsOrNull (getField fields "成份/材質")
    image_file := imagePair.1
    airtable_image_url := imagePair.2
    case_pack_size := jsNumOrNull (jsParseInt (getField fields "箱入數"))
    msrp := jsNumOrNull (jsParseFloat (stripDollarComma (jsToString (getField fields "建議售價"))))
    barcode := jsOrNull (getField fields "國際條碼")
    dimensions_cm := jsOrNull (jsOr (getField fields "商品尺寸（cm）") (getField fields "商品尺寸"))
    weight_g := jsNumOrNull (jsParseFloat (String.mk (removeFirstG
      (jsToString (jsOr (getField fields "重量（g）") (getField fields "重量g"))).data)))
    origin := jsOrNull (getField fields "產地")
    in_stock := cleanInStock (getField fields "現貨商品（Y/N）") }

/-! ## The products table (v3 schema) and the upsert statement

Columns per `migrations/0001_init.sql` (v3 shape): the mapped columns, the
source image URL, the local filename, and the `image_synced` state column
(`'N'` = not fetched, `'Y'` = fetched by the cron job, `'F'` = failed). -/

/-- One row of the v3 `products` table. -/
structure ProductRow where
  sku : JVal
  title : Option JVal
  title_en : Option JVal
  brand : Option JVal
  category : Option JVal
  description : Option JVal
  materials : Option JVal
  image_file : Option String
  airtable_image_url : Option String
  case_pack_size : Option Int
  msrp : Option Int
  barcode : Option JVal
  dimensions_cm : Option JVal
  weight_g : Option Int
  origin : Option JVal
  in_stock : String
  image_synced : String
deriving DecidableEq, Repr

/-- The `VALUES (..., 'N')` branch of the v3 upsert: a fresh row from the
bound cleaned values, with `image_synced` set to `'N'`. -/
def insertRow (c : CleanedRecord) (sku : JVal) : ProductRow :=
  { sku := sku
    title := c.title
    title_en := c.title_en
    brand := c.brand
    category := c.category
    description := c.description
    materials := c.materials
    image_file := c.image_file
    airtable_image_url := c.airtable_image_url
    case_pack_size := c.case_pack_size
    msrp := c.msrp
    barcode := c.barcode
    dimensions_cm := c.dimensions_cm
    weight_g := c.weight_g
    origin := c.origin
    in_stock := c.in_stock
    image_synced := "N" }

/-- The `ON CONFLICT(sku) DO UPDATE SET ... , image_synced='N'` branch: every
mapped column is overwritten from `excluded`, the key is untouched, and
`image_synced` is set to `'N'`. -/
def conflictUpdate (old : ProductRow) (c : CleanedRecord) : ProductRow :=
  { sku := old.sku
    title := c.title
    title_en := c.title_en
    brand := c.brand
    category := c.category
    description := c.description
    materials := c.materials
    image_file := c.image_file
    airtable_image_url := c.airtable_image_url
    case_pack_size := c.case_pack_size
    msrp := c.msrp
    barcode := c.barcode
    dimensions_cm := c.dimensions_cm
    weight_g := c.weight_g
    origin := c.origin
    in_stock := c.in_stock
    image_synced := "N" }

/-- Executing one bound upsert statement against the table: insert when no
row carries the bound sku, otherwise run the conflict update on the matching
row. A statement whose sku bind is `null` never reaches execution (the
importer skips those records), so it leaves the table unchanged. -/
def applyUpsert (db : List ProductRow) (c : CleanedRecord) : List ProductRow :=
  match c.sku with
  | none => db
  | some sv =>
    if db.any (fun r => r.sku = sv) then
      db.map (fun r => if r.sku = sv then conflictUpdate r c else r)
    else
      db ++ [insertRow c sv]

/-! ## Pagination (`do { fetch; ... } while (offset)`) -/

/-- One response of the external source: either a non-success HTTP status
(which the importer turns into a thrown error) or a page of records with an
optional continuation cursor. -/
inductive FetchResult where
  | error (status : Nat)
  | page (records : List AirtableRecord) (offset : Option Nat)

/-- Result of the pagination loop. -/
inductive FetchOutcome where
  | fetchError (status : Nat)
  | outOfFuel
  | done (records : List AirtableRecord)
deriving DecidableEq, Repr

/-- The `do ... while (offset)` pagination loop: request the page at the
current cursor, append its records, continue while a cursor is returned.
Returns the outcome together with the number of page requests issued; `fuel`
bounds the number of iterations of the source-controlled loop. -/
def fetchLoop (src : Option Nat → FetchResult) :
    Nat → Option Nat → List AirtableRecord → FetchOutcome × Nat
  | 0, _, _ => (.outOfFuel, 0)
  | fuel + 1, cursor, acc =>
    match src cursor with
    | .error s => (.fetchError s, 1)
    | .page recs next =>
      match next with
      | none => (.done (acc ++ recs), 1)
      | some c =>
        let rest := fetchLoop src fuel (some c) (acc ++ recs)
        (rest.1, rest.2 + 1)

/-- A well-behaved paginated source built from a finite list of pages: the
initial request (no cursor) returns page 0, a request with cursor `i` returns
page `i`, and every page except the last carries the cursor of its successor. -/
def chainSource (pages : List (List AirtableRecord)) : Option Nat → FetchResult :=
  fun cursor =>
    let i := cursor.getD 0
    let recs := (pages.get? i).getD []
    let next := if i + 1 < pages.length then some (i + 1) else none
    .page recs next

/-! ## `syncFromAirtable` (v3 importer) -/

/-- The worker environment bindings read by `syncFromAirtable`. -/
structure SyncEnv where
  AIRTABLE_API_TOKEN : Option String
  AIRTABLE_BASE_ID : Option String
  AIRTABLE_TABLE_NAME : Option String
deriving DecidableEq, Repr

/-- Truthiness of a string-valued secret (`undefined` and `""` are falsy). -/
def strTruthy (v : Option String) : Bool :=
  match v with
  | some s => s ≠ ""
  | none => false

/-- Distinguishable ways `syncFromAirtable` can finish: the early return on
missing secrets, the caught fetch error, running out of fuel, the early
return on zero records, or completion having queued `written` statements. -/
inductive SyncFromOutcome where
  | configError
  | fetchError (status : Nat)
  | outOfFuel
  | noRecords
  | completed (written : Nat)
deriving DecidableEq, Repr

/-- Observable result of a `syncFromAirtable` run: its outcome, the number of
page requests issued, the number of D1 batches executed, and the final table. -/
structure SyncFromResult where
  outcome : SyncFromOutcome
  fetches : Nat
  batchesRun : Nat
  db : List ProductRow
deriving DecidableEq, Repr

/-- The statement-preparation loop: clean each record and keep it only when
`cleaned.sku` is truthy (`if (!cleaned.sku) continue`). -/
def buildD1Statements (records : List AirtableRecord) : List CleanedRecord :=
  records.filterMap (fun r =>
    let cleaned := cleanAirtableRecord r.fields
    if cleaned.sku.isSome then some cleaned else none)

/-- Worker of `chunksOf`, structurally recursive on a fuel that bounds the
list length (every step with `0 < n` drops at least one element). -/
def chunksGo (n : Nat) : Nat → List α → List (List α)
  | _, [] => []
  | 0, _ :: _ => []
  | fuel + 1, x :: xs =>
    if n = 0 then []
    else (x :: xs).take n :: chunksGo n fuel ((x :: xs).drop n)

/-- Chunking `for (let i = 0; i < n; i += batchSize)` with `slice`: the
slices `l.take n, (l.drop n).take n, ...` in order. -/
def chunksOf (n : Nat) (l : List α) : List (List α) :=
  chunksGo n l.length l

/-- Embedding of `syncFromAirtable(env)`: check the secrets, paginate, build
one upsert statement per record with a truthy sku, and execute the statements
in batches of 100. On a thrown fetch error the catch block only logs, so the
table is returned unchanged with no batch executed. -/
def syncFromAirtable (env : SyncEnv) (src : Option Nat → FetchResult) (fuel : Nat)
    (db : List ProductRow) : SyncFromResult :=
  if ¬ (strTruthy env.AIRTABLE_API_TOKEN ∧ strTruthy env.AIRTABLE_BASE_ID ∧
        strTruthy env.AIRTABLE_TABLE_NAME) then
    { outcome := .configError, fetches := 0, batchesRun := 0, db := db }
  else
    match fetchLoop src fuel none [] with
    | (.fetchError s, n) => { outcome := .fetchError s, fetches := n, batchesRun := 0, db := db }
    | (.outOfFuel, n) => { outcome := .outOfFuel, fetches := n, batchesRun := 0, db := db }
    | (.done records, n) =>
      if records.length = 0 then
        { outcome := .noRecords, fetches := n, batchesRun := 0, db := db }
      else
        let stmts := buildD1Statements records
        if 0 < stmts.length then
          let chunks := chunksOf 100 stmts
          { outcome := .completed stmts.length
            fetches := n
            batchesRun := chunks.length
            db := chunks.foldl (fun d chunk => chunk.foldl applyUpsert d) db }
        else
          { outcome := .completed 0, fetches := n, batchesRun := 0, db := db }

/-! ## The cron image-fetch scheduler (`scheduled`)

Per invocation the handler selects up to `BATCH_SIZE` rows with
`airtable_image_url IS NOT NULL AND image_synced = 'N'`, then for each row:
mark `'F'` when `image_file` is missing; otherwise `head` the deterministic
R2 key `sku/image_file`, skip the download when the object exists, else
fetch the URL, throw on a non-ok response (caught per item, marking `'F'`),
and `put` the body, marking `'Y'`. -/

/-- An HTTP response of the image host as the handler consumes it. -/
structure FetchResp where
  ok : Bool
  status : Nat
  body : List Nat
deriving DecidableEq, Repr

/-- The R2 bucket: an association of keys to stored bodies. -/
abbrev R2Store := List (String × List Nat)

/-- `R2_BUCKET.head(key)` (object metadata or `null`). -/
def r2Head (r2 : R2Store) (key : String) : Option (List Nat) :=
  (r2.find? (fun e => e.1 = key)).map (fun e => e.2)

/-- `R2_BUCKET.put(key, body)`: overwrite or append. -/
def r2Put (r2 : R2Store) (key : String) (body : List Nat) : R2Store :=
  if r2.any (fun e => e.1 = key) then
    r2.map (fun e => if e.1 = key then (key, body) else e)
  else r2 ++ [(key, body)]

/-- The `SELECT ... WHERE airtable_image_url IS NOT NULL AND
image_synced = 'N' LIMIT ?` selection, in rowid order. -/
def selectPending (db : List ProductRow) (limit : Nat) : List ProductRow :=
  (db.filter (fun r => r.airtable_image_url.isSome && r.image_synced == "N")).take limit

/-- What processing one selected row produced: the sku whose state row is
updated, the new `image_synced` value queued for it, the URL whose body was
downloaded (if any), and the R2 write performed (if any). -/
structure ItemOutcome where
  sku : JVal
  newSynced : String
  fetchedUrl : Option String
  put : Option (String × List Nat)
deriving DecidableEq, Repr

/-- Per-item processing of the cron handler, returning the outcome and the
bucket after the item. The guard `if (!image_file)` tests JavaScript
falsiness, so both a null and an empty-string filename are marked `'F'`
immediately, with no head, fetch or put. -/
def processItem (world : String → FetchResp) (r2 : R2Store) (p : ProductRow) :
    ItemOutcome × R2Store :=
  match p.image_file with
  | none =>
    ({ sku := p.sku, newSynced := "F", fetchedUrl := none, put := none }, r2)
  | some file =>
    if file = "" then
      ({ sku := p.sku, newSynced := "F", fetchedUrl := none, put := none }, r2)
    else
    let r2Key := (p.sku).toStr ++ "/" ++ file
    match r2Head r2 r2Key with
    | some _ =>
      ({ sku := p.sku, newSynced := "Y", fetchedUrl := none, put := none }, r2)
    | none =>
      let url := (p.airtable_image_url).getD ""
      let resp := world url
      if resp.ok then
        ({ sku := p.sku, newSynced := "Y", fetchedUrl := some url,
           put := some (r2Key, resp.body) }, r2Put r2 r2Key resp.body)
      else
        ({ sku := p.sku, newSynced := "F", fetchedUrl := some url, put := none }, r2)

/-- The `for (const product of results)` loop: items processed in order, the
bucket threaded through, one outcome per item (a failing item is caught and
the loop continues). -/
def runItems (world : String → FetchResp) (r2 : R2Store) :
    List ProductRow → List ItemOutcome × R2Store
  | [] => ([], r2)
  | p :: ps =>
    let first := processItem world r2 p
    let rest := runItems world first.2 ps
    (first.1 :: rest.1, rest.2)

/-- `UPDATE products SET image_synced = v WHERE sku = ?`. -/
def applyUpdate (db : List ProductRow) (sku : JVal) (v : String) : List ProductRow :=
  db.map (fun r => if r.sku = sku then { r with image_synced := v } else r)

/-- The final `DATABASE.batch(d1UpdateStatements)`: apply the queued state
updates in order. -/
def applyUpdates (db : List ProductRow) (us : List (JVal × String)) : List ProductRow :=
  us.foldl (fun d u => applyUpdate d u.1 u.2) db

/-- Result of one cron invocation. -/
structure BatchRun where
  outcomes : List ItemOutcome
  db : List ProductRow
  r2 : R2Store
deriving DecidableEq, Repr

/-- Embedding of one `scheduled` invocation with batch limit `limit`
(`BATCH_SIZE = 10` in the source): select the pending rows, process each,
then batch the state updates. -/
def runImageBatch (limit : Nat) (world : String → FetchResp) (db : List ProductRow)
    (r2 : R2Store) : BatchRun :=
  let selected := selectPending db limit
  let processed := runItems world r2 selected
  let updates := processed.1.map (fun o => (o.sku, o.newSynced))
  { outcomes := processed.1, db := applyUpdates db updates, r2 := processed.2 }

/-! ## `syncAirtable` (v1 importer)

The v1 importer maps each record to an `INSERT OR REPLACE` into the v1
`products` table (sku, name, brand, status, raw_json) plus one statement per
usable attachment into `product_images`, processing records in chunks of 100;
each chunk's batch starts with a `DELETE FROM product_images WHERE sku IN
(...)` for the skus of that chunk. Records without a truthy `商品貨號` are
skipped with a warning. -/

/-- A bound v1 product statement
(`INSERT OR REPLACE INTO products (sku, name, brand, status, raw_json)`). -/
structure V1ProductStmt where
  sku : String
  name : Option JVal
  brand : Option JVal
  status : JVal
  raw_json : Fields
deriving DecidableEq, Repr

/-- A bound v1 image statement (`INSERT OR REPLACE INTO product_images`). -/
structure V1ImageStmt where
  sku : String
  filename : String
  url : String
  width : Option Int
  height : Option Int
  variant : String
deriving DecidableEq, Repr

/-- A statement of a v1 chunk batch. -/
inductive V1Stmt where
  | deleteImages (skus : List String)
  | product (p : V1ProductStmt)
  | image (i : V1ImageStmt)
deriving DecidableEq, Repr

/-- `skusInChunk.add(sku)` (a `Set`, in insertion order). -/
def insertSku (s : List String) (x : String) : List String :=
  if x ∈ s then s else s ++ [x]

/-- `img.width || null` on an attachment dimension. -/
def dimOrNull (v : Option Int) : Option Int :=
  match v with
  | some n => if n = 0 then none else some n
  | none => none

/-- The attachment loop of one record: keep attachments with truthy `url`
and `filename`, labelling variants `v1`, `v2`, ... in order (the counter
advances only on kept attachments). -/
def imageStmtsOf (sku : String) (counter : Nat) :
    List Attachment → List V1ImageStmt
  | [] => []
  | img :: rest =>
    match img.url, img.filename with
    | some u, some f =>
      if u ≠ "" ∧ f ≠ "" then
        { sku := sku, filename := f, url := u, width := dimOrNull img.width
          height := dimOrNull img.height
          variant := "v" ++ toString counter } :: imageStmtsOf sku (counter + 1) rest
      else imageStmtsOf sku counter rest
    | _, _ => imageStmtsOf sku counter rest

/-- Statements accumulated while scanning one chunk. -/
structure ChunkStmts where
  products : List V1ProductStmt
  images : List V1ImageStmt
  skus : List String
deriving DecidableEq, Repr

/-- Processing one record of a chunk: skip it when `商品貨號` is falsy,
otherwise trim its string form, register the sku, push the product statement
and the statements of its usable attachments. -/
def processRecord (acc : ChunkStmts) (r : AirtableRecord) : ChunkStmts :=
  if ¬ jsTruthy (getField r.fields "商品貨號") then acc
  else
    let sku := jsTrim (jsToString (getField r.fields "商品貨號"))
    let productStmt : V1ProductStmt :=
      { sku := sku
        name := jsOrNull (getField r.fields "產品名稱")
        brand := jsOrNull (getField r.fields "品牌名稱")
        status := (jsOrNull (getField r.fields "現貨商品")).getD (.str "draft")
        raw_json := r.fields }
    let imageStmts :=
      match getField r.fields "商品圖檔" with
      | some (.arr atts) => imageStmtsOf sku 1 atts
      | _ => []
    { products := acc.products ++ [productStmt]
      images := acc.images ++ imageStmts
      skus := insertSku acc.skus sku }

/-- The record loop of one chunk. -/
def processChunk (chunk : List AirtableRecord) : ChunkStmts :=
  chunk.foldl processRecord { products := [], images := [], skus := [] }

/-- The flat JSON result object of `syncAirtable`. -/
structure V1Result where
  ok : Bool
  recordsFetched : Nat
  productsUpserted : Nat
  imagesUpserted : Nat
  totalBatches : Nat
deriving DecidableEq, Repr

/-- A `syncAirtable` run: the result object, the number of page requests,
and the batches handed to `DATABASE.batch` in order. -/
structure V1Run where
  result : V1Result
  fetches : Nat
  batches : List (List V1Stmt)
deriving DecidableEq, Repr

/-- Accumulator of the chunk loop: upserted counts, chunk counter, batches. -/
structure V1Acc where
  products : Nat
  images : Nat
  chunks : Nat
  batches : List (List V1Stmt)
deriving DecidableEq, Repr

/-- One iteration of the chunk loop: count the chunk, skip the D1 write when
no valid sku appeared, otherwise execute the delete-then-upsert batch and add
its statement counts. -/
def syncChunkStep (acc : V1Acc) (chunk : List AirtableRecord) : V1Acc :=
  let cs := processChunk chunk
  let counted := { acc with chunks := acc.chunks + 1 }
  if cs.skus.isEmpty then counted
  else
    { products := counted.products + cs.products.length
      images := counted.images + cs.images.length
      chunks := counted.chunks
      batches := counted.batches ++
        [V1Stmt.deleteImages cs.skus :: (cs.products.map .product ++ cs.images.map .image)] }

/-- Embedding of `syncAirtable(env)`: paginate, return `ok: false` when a
page fetch throws, return the zero-record success early, otherwise process
the records in chunks of 100 and report the counters. -/
def syncAirtable (src : Option Nat → FetchResult) (fuel : Nat) : V1Run :=
  match fetchLoop src fuel none [] with
  | (.fetchError _, n) =>
    { result := { ok := false, recordsFetched := 0, productsUpserted := 0
                  imagesUpserted := 0, totalBatches := 0 }
      fetches := n, batches := [] }
  | (.outOfFuel, n) =>
    { result := { ok := false, recordsFetched := 0, productsUpserted := 0
                  imagesUpserted := 0, totalBatches := 0 }
      fetches := n, batches := [] }
  | (.done allRecords, n) =>
    if allRecords.length = 0 then
      { result := { ok := true, recordsFetched := 0, productsUpserted := 0
                    imagesUpserted := 0, totalBatches := 0 }
        fetches := n, batches := [] }
    else
      let final := (chunksOf 100 allRecords).foldl syncChunkStep
        { products := 0, images := 0, chunks := 0, batches := [] }
      { result := { ok := true
                    recordsFetched := allRecords.length
                    productsUpserted := final.products
                    imagesUpserted := final.images
                    totalBatches := final.chunks }
        fetches := n, batches := final.batches }

/-! ## Auxiliary semantic functions used by the theorems -/

/-- The `image_synced` value a row with key `sku` ends up with after a queued
list of state updates, starting from `init`. -/
def finalSynced (us : List (JVal × String)) (sku : JVal) (init : String) : String :=
  us.foldl (fun s u => if sku = u.1 then u.2 else s) init

/-! ## Concrete instances used by counterexamples and witnesses -/

/-- A v3 product row with every optional column null. -/
def baseRow : ProductRow :=
  { sku := .str "SKU", title := none, title_en := none, brand := none, category := none
    description := none, materials := none, image_file := none, airtable_image_url := none
    case_pack_size := none, msrp := none, barcode := none, dimensions_cm := none
    weight_g := none, origin := none, in_stock := "N", image_synced := "N" }

/-- A cleaned record with every optional value null. -/
def baseClean : CleanedRecord :=
  { sku := none, title := none, title_en := none, brand := none, category := none
    description := none, materials := none, image_file := none, airtable_image_url := none
    case_pack_size := none, msrp := none, barcode := none, dimensions_cm := none
    weight_g := none, origin := none, in_stock := "N" }

/-- A stored row whose image was already fetched (`'Y'`). -/
def rowC1 : ProductRow :=
  { baseRow with
    sku := .str "ABC-1"
    image_file := some "old.jpg"
    airtable_image_url := some "http://x/old.jpg"
    image_synced := "Y" }

/-- A re-imported record for the same sku carrying the same image reference. -/
def recC1 : CleanedRecord :=
  { baseClean with
    sku := some (.str "ABC-1")
    image_file := some "old.jpg"
    airtable_image_url := some "http://x/old.jpg" }

/-- A pending product with a resolvable image reference. -/
def prodC5 : ProductRow :=
  { baseRow with
    sku := .str "S1"
    image_file := some "a.jpg"
    airtable_image_url := some "http://h/a.jpg"
    image_synced := "N" }

/-- An image host that answers every request with a 3-byte body. -/
def worldOk : String → FetchResp :=
  fun _ => { ok := true, status := 200, body := [1, 2, 3] }

/-- The same product already materialized (`'Y'`). -/
def prodC7y : ProductRow :=
  { prodC5 with image_synced := "Y" }

/-- A bucket already holding the deterministic key of `prodC5`. -/
def r2C7 : R2Store := [("S1/a.jpg", [9, 9])]

/-- A pending product whose image URL will return 404. -/
def pFail : ProductRow :=
  { baseRow with
    sku := .str "A"
    image_file := some "a.jpg"
    airtable_image_url := some "http://h/404.jpg"
    image_synced := "N" }

/-- A second pending product after it in the batch. -/
def pNext : ProductRow :=
  { baseRow with
    sku := .str "B"
    image_file := some "b.jpg"
    airtable_image_url := some "http://h/b.jpg"
    image_synced := "N" }

/-- An image host that 404s `pFail`'s reference and serves everything else. -/
def world404 : String → FetchResp :=
  fun u =>
    if u = "http://h/404.jpg" then { ok := false, status := 404, body := [] }
    else { ok := true, status := 200, body := [7] }

/-- A record whose `商品貨號` is a single space: truthy, but trimming its
string form leaves the empty string. -/
def recC6 : AirtableRecord :=
  { id := "rec6", fields := [("商品貨號", .str " ")] }

/-- A record with no fields at all (in particular no `商品貨號`). -/
def recEmpty : AirtableRecord :=
  { id := "rec0", fields := [] }

/-- A record with arbitrary contents, used to populate pages. -/
def recDummy : AirtableRecord :=
  { id := "rec", fields := [] }

/-- Two pages of 100 records and a final page of 7. -/
def pagesC2 : List (List AirtableRecord) :=
  [List.replicate 100 recDummy, List.replicate 100 recDummy, List.replicate 7 recDummy]

/-- An environment missing the API token. -/
def envMissing : SyncEnv :=
  { AIRTABLE_API_TOKEN := none, AIRTABLE_BASE_ID := some "base"
    AIRTABLE_TABLE_NAME := some "table" }

/-- A fully configured environment. -/
def envOk : SyncEnv :=
  { AIRTABLE_API_TOKEN := some "tok", AIRTABLE_BASE_ID := some "base"
    AIRTABLE_TABLE_NAME := some "table" }

/-- A source whose first page request already fails with HTTP 500. -/
def srcErr : Option Nat → FetchResult :=
  fun _ => .error 500

/-! ## Helper lemmas: per-item processing -/

/-- Processing an item updates the state row of that item's own sku. -/
theorem processItem_sku (world : String → FetchResp) (r2 : R2Store) (p : ProductRow) :
    (processItem world r2 p).1.sku = p.sku := by
  unfold processItem
  split
  · rfl
  · split
    · rfl
    · dsimp only
      split
      · rfl
      · split
        · rfl
        · rfl

/-- Every state value the per-item processing queues is `'Y'` or `'F'`. -/
theorem processItem_newSynced (world : String → FetchResp) (r2 : R2Store) (p : ProductRow) :
    (processItem world r2 p).1.newSynced = "Y" ∨ (processItem world r2 p).1.newSynced = "F" := by
  unfold processItem
  split
  · exact Or.inr rfl
  · split
    · exact Or.inr rfl
    · dsimp only
      split
      · exact Or.inl rfl
      · split
        · exact Or.inl rfl
        · exact Or.inr rfl

/-- The item loop yields exactly one outcome per selected row, in order. -/
theorem runItems_sku_map (world : String → FetchResp) :
    ∀ (ps : List ProductRow) (r2 : R2Store),
      ((runItems world r2 ps).1).map (fun o => o.sku) = ps.map (fun p => p.sku) := by
  intro ps
  induction ps with
  | nil => intro r2; rfl
  | cons p rest ih =>
    intro r2
    simp only [runItems, List.map_cons]
    exact congrArg₂ _ (processItem_sku world r2 p) (ih _)

/-- The item loop yields exactly one outcome per selected row. -/
theorem runItems_length (world : String → FetchResp) (ps : List ProductRow) (r2 : R2Store) :
    ((runItems world r2 ps).1).length = ps.length := by
  have h := congrArg List.length (runItems_sku_map world ps r2)
  simpa using h

/-- Every outcome of the item loop carries state `'Y'` or `'F'`. -/
theorem runItems_newSynced (world : String → FetchResp) :
    ∀ (ps : List ProductRow) (r2 : R2Store) (o : ItemOutcome),
      o ∈ (runItems world r2 ps).1 → o.newSynced = "Y" ∨ o.newSynced = "F" := by
  intro ps
  induction ps with
  | nil =>
    intro r2 o ho
    simp [runItems] at ho
  | cons p rest ih =>
    intro r2 o ho
    simp only [runItems, List.mem_cons] at ho
    rcases ho with ho | ho
    · rw [ho]
      exact processItem_newSynced world r2 p
    · exact ih _ o ho

/-! ## Helper lemmas: applying queued state updates -/

/-- A batch of `UPDATE ... SET image_synced` statements acts row-wise: each
row keeps all its columns except `image_synced`, which becomes the fold of
the updates matching its sku. -/
theorem applyUpdates_eq_map :
    ∀ (us : List (JVal × String)) (db : List ProductRow),
      applyUpdates db us =
        db.map (fun r => { r with image_synced := finalSynced us r.sku r.image_synced }) := by
  intro us
  induction us with
  | nil =>
    intro db
    simp [applyUpdates, finalSynced]
  | cons u rest ih =>
    intro db
    have step : applyUpdates db (u :: rest) = applyUpdates (applyUpdate db u.1 u.2) rest := rfl
    rw [step, ih, applyUpdate, List.map_map]
    apply List.map_congr_left
    intro r _
    by_cases hs : r.sku = u.1
    · simp only [Function.comp, if_pos hs]
      have : finalSynced (u :: rest) r.sku r.image_synced = finalSynced rest r.sku u.2 := by
        simp [finalSynced, List.foldl_cons, hs]
      rw [this]
    · simp only [Function.comp, if_neg hs]
      have : finalSynced (u :: rest) r.sku r.image_synced =
          finalSynced rest r.sku r.image_synced := by
        simp [finalSynced, List.foldl_cons, hs]
      rw [this]

/-- Updates for other skus leave a row's state value alone. -/
theorem finalSynced_of_ne (sku : JVal) :
    ∀ (us : List (JVal × String)) (init : String),
      (∀ u ∈ us, u.1 ≠ sku) → finalSynced us sku init = init := by
  intro us
  induction us with
  | nil => intro init _; rfl
  | cons u rest ih =>
    intro init h
    have hne : ¬ (sku = u.1) := fun hc => (h u (List.mem_cons_self u rest)) hc.symm
    have : finalSynced (u :: rest) sku init = finalSynced rest sku init := by
      simp [finalSynced, List.foldl_cons, hne]
    rw [this]
    exact ih init (fun v hv => h v (List.mem_cons_of_mem u hv))

/-! ## Helper lemmas: pagination over a chained source -/

/-- Running the loop from cursor `i` of a chained source collects the
remaining pages and issues one request per remaining page. -/
theorem fetchLoop_chain_aux (pages : List (List AirtableRecord)) :
    ∀ (fuel i : Nat) (acc : List AirtableRecord), i < pages.length →
      pages.length - i ≤ fuel →
      fetchLoop (chainSource pages) fuel (some i) acc =
        (.done (acc ++ (pages.drop i).flatten), pages.length - i) := by
  intro fuel
  induction fuel with
  | zero =>
    intro i acc hi hf
    omega
  | succ fuel ih =>
    intro i acc hi hf
    have hsrc : chainSource pages (some i) =
        .page pages[i] (if i + 1 < pages.length then some (i + 1) else none) := by
      unfold chainSource
      simp [List.get?_eq_getElem?, List.getElem?_eq_getElem hi]
    rw [fetchLoop, hsrc]
    by_cases hlt : i + 1 < pages.length
    · simp only [if_pos hlt]
      rw [ih (i + 1) (acc ++ pages[i]) hlt (by omega)]
      rw [List.drop_eq_getElem_cons hi, List.flatten_cons, List.append_assoc]
      have : pages.length - i = pages.length - (i + 1) + 1 := by omega
      rw [this]
    · simp only [if_neg hlt]
      have hi1 : i + 1 = pages.length := by omega
      rw [List.drop_eq_getElem_cons hi, List.flatten_cons, hi1, List.drop_length,
        List.flatten_nil, List.append_nil]
      have : pages.length - i = 1 := by omega
      rw [this]

/-- With enough fuel, the loop over a chained source terminates at the first
cursor-less response, having fetched every page exactly once and collected
all records in order. -/
theorem fetchLoop_chain (pages : List (List AirtableRecord)) (fuel : Nat)
    (hfuel : pages.length + 1 ≤ fuel) :
    fetchLoop (chainSource pages) fuel none [] =
      (.done pages.flatten, max 1 pages.length) := by
  obtain ⟨f, rfl⟩ : ∃ f, fuel = f + 1 := ⟨fuel - 1, by omega⟩
  cases pages with
  | nil =>
    rw [fetchLoop]
    have hsrc : chainSource [] none = .page [] none := rfl
    rw [hsrc]
    rfl
  | cons p ps =>
    have hsrc : chainSource (p :: ps) none =
        .page p (if 0 + 1 < (p :: ps).length then some (0 + 1) else none) := by
      unfold chainSource
      simp
    rw [fetchLoop, hsrc]
    by_cases hlt : 0 + 1 < (p :: ps).length
    · simp only [if_pos hlt]
      rw [fetchLoop_chain_aux (p :: ps) f 1 ([] ++ p) hlt (by simp at hfuel ⊢; omega)]
      simp only [List.drop_one, List.nil_append, List.tail_cons, List.flatten_cons]
      have hmax : (p :: ps).length - 1 + 1 = max 1 (p :: ps).length := by
        simp only [List.length_cons]
        omega
      rw [hmax]
    · simp only [if_neg hlt]
      have hps : ps = [] := by
        cases ps with
        | nil => rfl
        | cons q qs => simp at hlt
      subst hps
      simp [List.flatten_cons]

/-! ## Helper lemmas: record skipping in the importers -/

/-- A truthy `x || null` value is itself truthy. -/
theorem jsOrNull_truthy (x : Option JVal) (v : JVal) (h : jsOrNull x = some v) :
    v.truthy = true := by
  unfold jsOrNull at h
  cases x with
  | none => exact absurd h (by simp)
  | some y =>
    dsimp only at h
    by_cases ht : y.truthy
    · rw [if_pos ht] at h
      rw [← Option.some.inj h]
      exact ht
    · rw [if_neg ht] at h
      exact absurd h (by simp)

/-- A record with a falsy `商品貨號` leaves the chunk accumulator unchanged
(the v1 importer skips it). -/
theorem processRecord_skip (acc : ChunkStmts) (r : AirtableRecord)
    (h : jsTruthy (getField r.fields "商品貨號") = false) :
    processRecord acc r = acc := by
  simp [processRecord, h]

/-- A chunk consisting only of records with falsy identifiers contributes
nothing. -/
theorem foldl_processRecord_all_falsy :
    ∀ (l : List AirtableRecord) (acc : ChunkStmts),
      (∀ r ∈ l, jsTruthy (getField r.fields "商品貨號") = false) →
      l.foldl processRecord acc = acc := by
  intro l
  induction l with
  | nil => intro acc _; rfl
  | cons r rest ih =>
    intro acc h
    rw [List.foldl_cons, processRecord_skip acc r (h r (List.mem_cons_self r rest))]
    exact ih acc (fun q hq => h q (List.mem_cons_of_mem r hq))

/-- Every product statement accumulated over a chunk either was already in
the accumulator or stems from a record with a truthy identifier, whose
trimmed string form is the statement's sku. -/
theorem foldl_processRecord_products_from :
    ∀ (l : List AirtableRecord) (acc : ChunkStmts) (s : V1ProductStmt),
      s ∈ (l.foldl processRecord acc).products →
      s ∈ acc.products ∨ ∃ r ∈ l, jsTruthy (getField r.fields "商品貨號") = true ∧
        s.sku = jsTrim (jsToString (getField r.fields "商品貨號")) := by
  intro l
  induction l with
  | nil => intro acc s hs; exact Or.inl hs
  | cons r rest ih =>
    intro acc s hs
    rw [List.foldl_cons] at hs
    rcases ih (processRecord acc r) s hs with hacc | ⟨q, hq, hqq⟩
    · by_cases ht : jsTruthy (getField r.fields "商品貨號") = true
      · have hpush : (processRecord acc r).products =
            acc.products ++
            [{ sku := jsTrim (jsToString (getField r.fields "商品貨號"))
               name := jsOrNull (getField r.fields "產品名稱")
               brand := jsOrNull (getField r.fields "品牌名稱")
               status := (jsOrNull (getField r.fields "現貨商品")).getD (.str "draft")
               raw_json := r.fields }] := by
          simp [processRecord, ht]
        rw [hpush] at hacc
        rcases List.mem_append.mp hacc with h1 | h2
        · exact Or.inl h1
        · right
          exact ⟨r, List.mem_cons_self r rest, ht, by rw [List.mem_singleton.mp h2]⟩
      · have hf : jsTruthy (getField r.fields "商品貨號") = false :=
          Bool.not_eq_true _ ▸ eq_false_of_ne_true ht
        rw [processRecord_skip acc r hf] at hacc
        exact Or.inl hacc
    · exact Or.inr ⟨q, List.mem_cons_of_mem r hq, hqq⟩

/-! ## Claim C1 -/

/-- C1, counterexample. The claim states that an upsert whose newly mapped
image reference equals the stored one leaves the image-fetch-state unchanged.
The code's conflict update sets `image_synced = 'N'` unconditionally: here the
stored row holds the same image URL as the incoming record and state `'Y'`,
yet after the upsert its state is `'N'`. -/
theorem C1_counterexample :
    recC1.airtable_image_url = rowC1.airtable_image_url ∧
    rowC1.image_synced = "Y" ∧
    (applyUpsert [rowC1] recC1).map (fun r => r.image_synced) = ["N"] := by
  refine ⟨rfl, rfl, ?_⟩
  rfl

/-- C1, amended. Every row written by an upsert statement for its bound sku
has image-fetch-state `'N'` and the newly mapped image filename,
unconditionally — the conflict update never compares the stored image
reference with the incoming one. -/
theorem C1_upsert_resets_unconditionally (db : List ProductRow) (c : CleanedRecord)
    (sv : JVal) (hsku : c.sku = some sv) (r : ProductRow)
    (hr : r ∈ applyUpsert db c) (hrs : r.sku = sv) :
    r.image_synced = "N" ∧ r.image_file = c.image_file ∧
    r.airtable_image_url = c.airtable_image_url := by
  unfold applyUpsert at hr
  rw [hsku] at hr
  dsimp only at hr
  by_cases hany : db.any (fun q => q.sku = sv)
  · rw [if_pos hany] at hr
    obtain ⟨q, hq, hqr⟩ := List.mem_map.mp hr
    by_cases hqs : q.sku = sv
    · rw [if_pos hqs] at hqr
      rw [← hqr]
      exact ⟨rfl, rfl, rfl⟩
    · rw [if_neg hqs] at hqr
      rw [← hqr] at hrs
      exact absurd hrs hqs
  · rw [if_neg hany] at hr
    rcases List.mem_append.mp hr with hdb | hlast
    · exact absurd (List.any_eq_true.mpr ⟨r, hdb, decide_eq_true hrs⟩) hany
    · rw [List.mem_singleton.mp hlast]
      exact ⟨rfl, rfl, rfl⟩

/-- C1, witness for the amended theorem: the concrete re-import of `rowC1`'s
sku ends with state `'N'`. -/
theorem C1_witness :
    (conflictUpdate rowC1 recC1).image_synced = "N" ∧
    (conflictUpdate rowC1 recC1).image_file = recC1.image_file ∧
    (conflictUpdate rowC1 recC1).airtable_image_url = recC1.airtable_image_url :=
  C1_upsert_resets_unconditionally [rowC1] recC1 (.str "ABC-1") rfl
    (conflictUpdate rowC1 recC1)
    (by rw [show applyUpsert [rowC1] recC1 = [conflictUpdate rowC1 recC1] from rfl]
        exact List.mem_singleton.mpr rfl)
    rfl

/-! ## Claim C3 -/

/-- C3. `runImageBatch(n)` selects and processes at most `n` rows; every
selected row is in state `'N'` (pending) with a non-null image reference, so
rows in state `'Y'` (done) or `'F'` (failed) are never selected. -/
theorem C3_selection_bounded_pending (db : List ProductRow) (limit : Nat)
    (world : String → FetchResp) (r2 : R2Store) :
    (selectPending db limit).length ≤ limit ∧
    (runImageBatch limit world db r2).outcomes.length ≤ limit ∧
    ∀ p ∈ selectPending db limit,
      p.image_synced = "N" ∧ p.airtable_image_url ≠ none ∧
      p.image_synced ≠ "Y" ∧ p.image_synced ≠ "F" := by
  have hlen : (selectPending db limit).length ≤ limit := by
    unfold selectPending
    rw [List.length_take]
    exact Nat.min_le_left _ _
  refine ⟨hlen, ?_, ?_⟩
  · show ((runItems world r2 (selectPending db limit)).1).length ≤ limit
    rw [runItems_length]
    exact hlen
  · intro p hp
    have hmem := List.mem_of_mem_take hp
    rw [List.mem_filter] at hmem
    obtain ⟨-, hpred⟩ := hmem
    rw [Bool.and_eq_true, beq_iff_eq] at hpred
    obtain ⟨hsome, hN⟩ := hpred
    refine ⟨hN, Option.isSome_iff_ne_none.mp hsome, ?_, ?_⟩
    · rw [hN]; decide
    · rw [hN]; decide

/-- C3, witness: on a two-row table with one pending and one done row and
limit 10, the selection facts hold at the pending row. -/
theorem C3_witness :
    (selectPending [prodC5, prodC7y] 10).length ≤ 10 ∧
    (runImageBatch 10 worldOk [prodC5, prodC7y] []).outcomes.length ≤ 10 ∧
    (prodC5.image_synced = "N" ∧ prodC5.airtable_image_url ≠ none ∧
      prodC5.image_synced ≠ "Y" ∧ prodC5.image_synced ≠ "F") :=
  ⟨(C3_selection_bounded_pending [prodC5, prodC7y] 10 worldOk []).1,
   (C3_selection_bounded_pending [prodC5, prodC7y] 10 worldOk []).2.1,
   (C3_selection_bounded_pending [prodC5, prodC7y] 10 worldOk []).2.2 prodC5
     (by rw [show selectPending [prodC5, prodC7y] 10 = [prodC5] from rfl]
         exact List.mem_singleton.mpr rfl)⟩

/-! ## Claim C5 -/

/-- C5, counterexample. The claim states that a pending product whose image
size exceeds the configured maximum is marked failed without a blob-store
`put`. The scheduler has no size check: for a maximum of 0 this non-empty
body (length 3 > 0) is still persisted and the product marked `'Y'`. -/
theorem C5_counterexample :
    (worldOk "http://h/a.jpg").ok = true ∧
    0 < (worldOk "http://h/a.jpg").body.length ∧
    (runImageBatch 10 worldOk [prodC5] []).db.map (fun r => r.image_synced) = ["Y"] ∧
    (runImageBatch 10 worldOk [prodC5] []).r2 = [("S1/a.jpg", [1, 2, 3])] := by
  refine ⟨rfl, ?_, rfl, rfl⟩
  decide

/-- C5, amended. The scheduler imposes no size limit: for a product with a
non-empty filename (the falsiness guard otherwise marks it `'F'` with no
fetch), whenever the key is not yet in the bucket and the fetch response is
successful, the body is persisted via `put` and the product marked `'Y'`,
regardless of the body's size. -/
theorem C5_no_size_limit (world : String → FetchResp) (r2 : R2Store) (p : ProductRow)
    (f : String) (hfile : p.image_file = some f) (hne : f ≠ "")
    (hhead : r2Head r2 (p.sku.toStr ++ "/" ++ f) = none)
    (hok : (world (p.airtable_image_url.getD "")).ok = true) :
    (processItem world r2 p).1.newSynced = "Y" ∧
    (processItem world r2 p).1.put =
      some (p.sku.toStr ++ "/" ++ f, (world (p.airtable_image_url.getD "")).body) ∧
    (processItem world r2 p).2 =
      r2Put r2 (p.sku.toStr ++ "/" ++ f) (world (p.airtable_image_url.getD "")).body := by
  unfold processItem
  rw [hfile]
  dsimp only
  rw [if_neg hne]
  try dsimp only
  rw [hhead]
  try dsimp only
  rw [hok]
  exact ⟨rfl, rfl, rfl⟩

/-- C5, witness for the amended theorem: the concrete 3-byte body is
persisted and the product marked `'Y'`. -/
theorem C5_witness :
    (processItem worldOk [] prodC5).1.newSynced = "Y" ∧
    (processItem worldOk [] prodC5).1.put =
      some (prodC5.sku.toStr ++ "/" ++ "a.jpg",
        (worldOk (prodC5.airtable_image_url.getD "")).body) ∧
    (processItem worldOk [] prodC5).2 =
      r2Put [] (prodC5.sku.toStr ++ "/" ++ "a.jpg")
        (worldOk (prodC5.airtable_image_url.getD "")).body :=
  C5_no_size_limit worldOk [] prodC5 "a.jpg" rfl (by decide) rfl rfl

/-! ## Claim C7 -/

/-- C7. (a) For a pending product with a non-empty filename whose
deterministic key already has an object in the bucket, the handler fetches no
image body, performs no `put`, and marks the product `'Y'`; the bucket is
returned unchanged. (b) A product already materialized (state `'Y'`) is not
selected, so running the handler again over it leaves the table and the
bucket unchanged. -/
theorem C7_existing_key_skips_and_marks_done (world : String → FetchResp) (r2 : R2Store)
    (p : ProductRow) (f : String) (b : List Nat) (limit : Nat) :
    (p.image_file = some f → f ≠ "" → r2Head r2 (p.sku.toStr ++ "/" ++ f) = some b →
      processItem world r2 p =
        ({ sku := p.sku, newSynced := "Y", fetchedUrl := none, put := none }, r2)) ∧
    (p.image_synced = "Y" →
      runImageBatch limit world [p] r2 = { outcomes := [], db := [p], r2 := r2 }) := by
  constructor
  · intro hfile hne hhead
    unfold processItem
    rw [hfile]
    dsimp only
    rw [if_neg hne]
    try dsimp only
    rw [hhead]
  · intro hY
    have hsel : selectPending [p] limit = [] := by
      unfold selectPending
      have : [p].filter (fun r => r.airtable_image_url.isSome && r.image_synced == "N") = [] := by
        simp [List.filter, hY]
      rw [this, List.take_nil]
    unfold runImageBatch
    rw [hsel]
    rfl

/-- C7, witness: both halves at concrete inputs — the bucket already holding
`S1/a.jpg` makes the pending `prodC5` skip the download, and a batch over the
already-done `prodC7y` changes nothing. -/
theorem C7_witness :
    (processItem worldOk r2C7 prodC5 =
      ({ sku := prodC5.sku, newSynced := "Y", fetchedUrl := none, put := none }, r2C7)) ∧
    (runImageBatch 10 worldOk [prodC7y] r2C7 =
      { outcomes := [], db := [prodC7y], r2 := r2C7 }) :=
  ⟨(C7_existing_key_skips_and_marks_done worldOk r2C7 prodC5 "a.jpg" [9, 9] 10).1 rfl
     (by decide) rfl,
   (C7_existing_key_skips_and_marks_done worldOk r2C7 prodC7y "a.jpg" [9, 9] 10).2 rfl⟩

/-! ## Claim C8 -/

/-- C8. When any of the three required source credentials is absent, the
importer returns the configuration-error outcome having issued zero page
requests and zero store batches, with the table unchanged. -/
theorem C8_config_error_fails_fast (env : SyncEnv) (src : Option Nat → FetchResult)
    (fuel : Nat) (db : List ProductRow)
    (h : env.AIRTABLE_API_TOKEN = none ∨ env.AIRTABLE_BASE_ID = none ∨
         env.AIRTABLE_TABLE_NAME = none) :
    syncFromAirtable env src fuel db =
      { outcome := .configError, fetches := 0, batchesRun := 0, db := db } := by
  unfold syncFromAirtable
  have hc : ¬ (strTruthy env.AIRTABLE_API_TOKEN ∧ strTruthy env.AIRTABLE_BASE_ID ∧
      strTruthy env.AIRTABLE_TABLE_NAME) := by
    rcases h with h | h | h <;> rw [h] <;> simp [strTruthy]
  rw [if_pos hc]

/-- C8, witness: an environment missing the API token aborts before any fetch
or write. -/
theorem C8_witness :
    syncFromAirtable envMissing srcErr 5 [rowC1] =
      { outcome := .configError, fetches := 0, batchesRun := 0, db := [rowC1] } :=
  C8_config_error_fails_fast envMissing srcErr 5 [rowC1] (Or.inl rfl)

/-! ## Claim C9 -/

/-- C9. The importer completes all page fetches before preparing or executing
any store write; consequently, when the pagination loop ends in a fetch
error, the run executes zero batches and leaves the table exactly as it was. -/
theorem C9_fetch_error_leaves_store_unchanged (env : SyncEnv)
    (src : Option Nat → FetchResult) (fuel : Nat) (db : List ProductRow) (s n : Nat)
    (h : fetchLoop src fuel none [] = (.fetchError s, n)) :
    (syncFromAirtable env src fuel db).db = db ∧
    (syncFromAirtable env src fuel db).batchesRun = 0 := by
  unfold syncFromAirtable
  by_cases hc : ¬ (strTruthy env.AIRTABLE_API_TOKEN ∧ strTruthy env.AIRTABLE_BASE_ID ∧
      strTruthy env.AIRTABLE_TABLE_NAME)
  · rw [if_pos hc]
    exact ⟨rfl, rfl⟩
  · rw [if_neg hc, h]
    exact ⟨rfl, rfl⟩

/-- C9, witness: a fully configured run against a source whose first page
request fails with HTTP 500 leaves the concrete table untouched. -/
theorem C9_witness :
    (syncFromAirtable envOk srcErr 5 [rowC1]).db = [rowC1] ∧
    (syncFromAirtable envOk srcErr 5 [rowC1]).batchesRun = 0 :=
  C9_fetch_error_leaves_store_unchanged envOk srcErr 5 [rowC1] 500 1 rfl

/-! ## Claim C10 -/

/-- C10. Every write to the image-sync state column stores one of exactly
`'N'`, `'Y'`, `'F'`: the importer's insert branch and conflict branch both
store `'N'`, and every update the scheduler queues stores `'Y'` or `'F'`; in
particular no write ever stores the `'T'` mentioned in the schema comment. -/
theorem C10_state_writes_three_valued (c : CleanedRecord) (sv : JVal) (old : ProductRow)
    (world : String → FetchResp) (r2 : R2Store) (ps : List ProductRow) :
    (insertRow c sv).image_synced = "N" ∧
    (conflictUpdate old c).image_synced = "N" ∧
    (∀ o ∈ (runItems world r2 ps).1, o.newSynced = "Y" ∨ o.newSynced = "F") ∧
    (∀ o ∈ (runItems world r2 ps).1, o.newSynced ≠ "T") := by
  refine ⟨rfl, rfl, runItems_newSynced world ps r2, ?_⟩
  intro o ho
  rcases runItems_newSynced world ps r2 o ho with h | h <;> rw [h] <;> decide

/-- C10, witness: at a concrete batch, the queued write for the pending
product is `'Y'` or `'F'` and is not `'T'`. -/
theorem C10_witness :
    (insertRow recC1 (.str "ABC-1")).image_synced = "N" ∧
    (conflictUpdate rowC1 recC1).image_synced = "N" ∧
    ((processItem worldOk [] prodC5).1.newSynced = "Y" ∨
      (processItem worldOk [] prodC5).1.newSynced = "F") ∧
    (processItem worldOk [] prodC5).1.newSynced ≠ "T" :=
  ⟨(C10_state_writes_three_valued recC1 (.str "ABC-1") rowC1 worldOk [] [prodC5]).1,
   (C10_state_writes_three_valued recC1 (.str "ABC-1") rowC1 worldOk [] [prodC5]).2.1,
   (C10_state_writes_three_valued recC1 (.str "ABC-1") rowC1 worldOk [] [prodC5]).2.2.1
     (processItem worldOk [] prodC5).1 (List.mem_cons_self _ _),
   (C10_state_writes_three_valued recC1 (.str "ABC-1") rowC1 worldOk [] [prodC5]).2.2.2
     (processItem worldOk [] prodC5).1 (List.mem_cons_self _ _)⟩

/-! ## Claim C2 -/

/-- C2. Over a chained finite source the importer requests pages one at a
time following the cursor, terminating at the first response without one
(one request per page, and a single request when the source is empty); the
reported `recordsFetched` equals the total number of records across all
pages, the run reports success, and a source with zero total records yields
a success result with zero records fetched. -/
theorem C2_pagination_totals (pages : List (List AirtableRecord)) (fuel : Nat)
    (hfuel : pages.length + 1 ≤ fuel) :
    (syncAirtable (chainSource pages) fuel).result.ok = true ∧
    (syncAirtable (chainSource pages) fuel).result.recordsFetched = pages.flatten.length ∧
    (syncAirtable (chainSource pages) fuel).fetches = max 1 pages.length ∧
    (pages.flatten = [] →
      (syncAirtable (chainSource pages) fuel).result.recordsFetched = 0) := by
  have hloop := fetchLoop_chain pages fuel hfuel
  unfold syncAirtable
  rw [hloop]
  dsimp only
  by_cases h0 : pages.flatten.length = 0
  · rw [if_pos h0]
    exact ⟨rfl, by rw [h0], rfl, fun _ => rfl⟩
  · rw [if_neg h0]
    exact ⟨rfl, rfl, rfl, fun hf => absurd (by rw [hf]; rfl) h0⟩

/-- C2, witness: two pages of 100 records and a final page of 7 yield
`recordsFetched = 207` with exactly 3 page requests, and the one-empty-page
source yields success with zero records fetched. -/
theorem C2_witness :
    ((syncAirtable (chainSource pagesC2) 4).result.ok = true ∧
      (syncAirtable (chainSource pagesC2) 4).result.recordsFetched = 207 ∧
      (syncAirtable (chainSource pagesC2) 4).fetches = 3) ∧
    ((syncAirtable (chainSource [[]]) 2).result.ok = true ∧
      (syncAirtable (chainSource [[]]) 2).result.recordsFetched = 0) := by
  have h1 := C2_pagination_totals pagesC2 4 (by rw [show pagesC2.length = 3 from rfl])
  have h2 := C2_pagination_totals [[]] 2 (by rw [show ([[]] : List (List AirtableRecord)).length = 1 from rfl])
  refine ⟨⟨h1.1, ?_, ?_⟩, h2.1, h2.2.2.2 rfl⟩
  · rw [h1.2.1]
    show pagesC2.flatten.length = 207
    rw [show pagesC2 = [List.replicate 100 recDummy, List.replicate 100 recDummy,
      List.replicate 7 recDummy] from rfl]
    rw [List.length_flatten]
    simp only [List.map_cons, List.map_nil, List.length_replicate, List.sum_cons,
      List.sum_nil]
    omega
  · rw [h1.2.2.1, show pagesC2.length = 3 from rfl]
    decide

/-! ## Claim C4 -/

/-- C4. When the first selected pending product's image fetch returns a
non-success response (its filename is non-empty, so a fetch is attempted at
all), the batch queues state `'F'` for it with no blob-store
write (the bucket is exactly what processing the remaining items alone
produces), the remaining items are all still processed (one outcome each,
identical to processing them alone), after the batch every row of that sku is
in state `'F'`, and no row's image-file column is touched (a failed product's
local key stays null). -/
theorem C4_item_failure_isolated (world : String → FetchResp) (r2 : R2Store)
    (db : List ProductRow) (limit : Nat) (p : ProductRow) (rest : List ProductRow)
    (f : String)
    (hsel : selectPending db limit = p :: rest)
    (hfile : p.image_file = some f) (hne : f ≠ "")
    (hhead : r2Head r2 (p.sku.toStr ++ "/" ++ f) = none)
    (hfail : (world (p.airtable_image_url.getD "")).ok = false)
    (huniq : ∀ q ∈ rest, q.sku ≠ p.sku) :
    (runImageBatch limit world db r2).outcomes =
      { sku := p.sku, newSynced := "F", fetchedUrl := some (p.airtable_image_url.getD ""),
        put := none } :: (runItems world r2 rest).1 ∧
    (runImageBatch limit world db r2).r2 = (runItems world r2 rest).2 ∧
    (∀ r ∈ (runImageBatch limit world db r2).db, r.sku = p.sku → r.image_synced = "F") ∧
    (runImageBatch limit world db r2).db.map (fun r => r.image_file) =
      db.map (fun r => r.image_file) := by
  have hproc : processItem world r2 p =
      ({ sku := p.sku, newSynced := "F", fetchedUrl := some (p.airtable_image_url.getD "")
         put := none }, r2) := by
    unfold processItem
    rw [hfile]
    dsimp only
    rw [if_neg hne]
    try dsimp only
    rw [hhead]
    dsimp only
    simp [hfail]
  have hrun : runItems world r2 (p :: rest) =
      ({ sku := p.sku, newSynced := "F", fetchedUrl := some (p.airtable_image_url.getD "")
         put := none } :: (runItems world r2 rest).1, (runItems world r2 rest).2) := by
    simp only [runItems, hproc]
  have hbatch : runImageBatch limit world db r2 =
      { outcomes :=
          { sku := p.sku
            newSynced := "F"
            fetchedUrl := some (p.airtable_image_url.getD "")
            put := none } :: (runItems world r2 rest).1
        db := applyUpdates db ((p.sku, "F") ::
          (runItems world r2 rest).1.map (fun o => (o.sku, o.newSynced)))
        r2 := (runItems world r2 rest).2 } := by
    unfold runImageBatch
    rw [hsel]
    dsimp only
    rw [hrun]
    simp only [List.map_cons]
  have hne : ∀ u ∈ (runItems world r2 rest).1.map (fun o => (o.sku, o.newSynced)),
      u.1 ≠ p.sku := by
    intro u hu
    obtain ⟨o, ho, rfl⟩ := List.mem_map.mp hu
    have hm : o.sku ∈ ((runItems world r2 rest).1).map (fun o => o.sku) :=
      List.mem_map_of_mem _ ho
    rw [runItems_sku_map] at hm
    obtain ⟨q, hq, hqs⟩ := List.mem_map.mp hm
    rw [← hqs]
    exact huniq q hq
  rw [hbatch]
  refine ⟨rfl, rfl, ?_, ?_⟩
  · intro r hr hrs
    rw [applyUpdates_eq_map] at hr
    obtain ⟨r0, hr0, hr0e⟩ := List.mem_map.mp hr
    rw [← hr0e] at hrs ⊢
    have hsku0 : r0.sku = p.sku := hrs
    show finalSynced _ r0.sku r0.image_synced = "F"
    rw [hsku0]
    have hstep : finalSynced ((p.sku, "F") ::
        (runItems world r2 rest).1.map (fun o => (o.sku, o.newSynced))) p.sku
          r0.image_synced =
        finalSynced ((runItems world r2 rest).1.map (fun o => (o.sku, o.newSynced)))
          p.sku "F" := by
      simp [finalSynced, List.foldl_cons]
    rw [hstep]
    exact finalSynced_of_ne p.sku _ "F" hne
  · rw [applyUpdates_eq_map, List.map_map]
    apply List.map_congr_left
    intro r _
    rfl

/-- C4, witness: in a concrete two-item batch whose first item 404s, the
first outcome is `'F'` with no put, the second item is still processed, the
failed row ends in state `'F'`, and no image-file column changed. -/
theorem C4_witness :
    (runImageBatch 10 world404 [pFail, pNext] []).outcomes =
      { sku := pFail.sku
        newSynced := "F"
        fetchedUrl := some (pFail.airtable_image_url.getD "")
        put := none } :: (runItems world404 [] [pNext]).1 ∧
    (runImageBatch 10 world404 [pFail, pNext] []).r2 = (runItems world404 [] [pNext]).2 ∧
    (∀ r ∈ (runImageBatch 10 world404 [pFail, pNext] []).db,
      r.sku = pFail.sku → r.image_synced = "F") ∧
    (runImageBatch 10 world404 [pFail, pNext] []).db.map (fun r => r.image_file) =
      [pFail, pNext].map (fun r => r.image_file) :=
  C4_item_failure_isolated world404 [] [pFail, pNext] 10 pFail [pNext] "a.jpg"
    rfl rfl (by decide) rfl (by decide)
    (by intro q hq
        rw [List.mem_singleton.mp hq]
        decide)

/-! ## Claim C6 -/

/-- C6, counterexample. The claim states that no product row is ever written
with a null or empty sku. A record whose `商品貨號` is a single space is
truthy, so neither importer drops it; the v1 importer trims the value when
binding the insert, producing a product statement (and its sku-set entry)
with the empty-string sku, which its batch then writes. -/
theorem C6_counterexample :
    jsTruthy (getField recC6.fields "商品貨號") = true ∧
    (syncAirtable (chainSource [[recC6]]) 2).batches =
      [[V1Stmt.deleteImages [""],
        V1Stmt.product
          { sku := "", name := none, brand := none, status := .str "draft"
            raw_json := recC6.fields }]] :=
  ⟨rfl, rfl⟩

/-- C6, amended. Records whose identifier is absent or otherwise falsy
(missing, null, empty) are dropped by both importers, writing zero rows: in
the v3 importer every prepared statement's sku bind is a truthy value, and in
the v1 importer a chunk of only falsy-identifier records yields no product
statement, while every product statement stems from a truthy-identifier
record — but its sku is the TRIMMED string form of that identifier, so a
whitespace-only identifier yields an empty-string sku (the original claim's
no-empty-sku invariant fails there). -/
theorem C6_falsy_identifier_dropped (records chunk : List AirtableRecord) :
    (∀ c ∈ buildD1Statements records, ∃ v, c.sku = some v ∧ v.truthy = true) ∧
    ((∀ r ∈ chunk, jsTruthy (getField r.fields "商品貨號") = false) →
      (processChunk chunk).products = []) ∧
    (∀ s ∈ (processChunk chunk).products, ∃ r ∈ chunk,
      jsTruthy (getField r.fields "商品貨號") = true ∧
      s.sku = jsTrim (jsToString (getField r.fields "商品貨號"))) := by
  refine ⟨?_, ?_, ?_⟩
  · intro c hc
    unfold buildD1Statements at hc
    obtain ⟨r, _, hf⟩ := List.mem_filterMap.mp hc
    dsimp only at hf
    by_cases hs : (cleanAirtableRecord r.fields).sku.isSome
    · rw [if_pos hs] at hf
      obtain ⟨v, hv⟩ := Option.isSome_iff_exists.mp hs
      refine ⟨v, ?_, jsOrNull_truthy _ v hv⟩
      rw [← Option.some.inj hf]
      exact hv
    · rw [if_neg hs] at hf
      exact absurd hf (by simp)
  · intro h
    unfold processChunk
    rw [foldl_processRecord_all_falsy chunk _ h]
  · intro s hs
    unfold processChunk at hs
    rcases foldl_processRecord_products_from chunk _ s hs with h0 | h
    · exact absurd h0 (by simp)
    · exact h

/-- C6, witness: a record with no fields is dropped — the chunk built from it
contains no product statement — and the empty statement list trivially
satisfies the truthy-sku property. -/
theorem C6_witness :
    (processChunk [recEmpty]).products = [] ∧
    (∀ c ∈ buildD1Statements [recEmpty], ∃ v, c.sku = some v ∧ v.truthy = true) :=
  ⟨(C6_falsy_identifier_dropped [recEmpty] [recEmpty]).2.1
    (fun r hr => by rw [List.mem_singleton.mp hr]; rfl),
   (C6_falsy_identifier_dropped [recEmpty] [recEmpty]).1⟩

end PetRepublic
